import Mathlib

/-!
Shallow embedding of the scheduling and live-status broadcast core of the
resticity repository (src/internal/scheduler.go, the websocket hub and
viewer-session code, and src/restic.go), together with theorems settling
the frozen claims about it.

Go slices become Lean lists, Go maps become association lists with the
map's key-uniqueness as an explicit hypothesis where a claim needs it,
channel sends become appends to an explicit trace of emitted messages,
and wall-clock times are opaque naturals passed in by the caller.
-/

namespace Resticity

/-- A configured recurring job definition.  The struct itself is not under
src/; its fields are taken from their uses in scheduler.go
(`schedule.Id`, `schedule.Cron`, `schedule.BackupId`,
`schedule.ToRepositoryId`) and the spec's data model, which also names
`fromRepositoryId`. -/
structure Schedule where
  id : String
  cron : String
  backupId : String
  toRepositoryId : String
  fromRepositoryId : String
deriving Repr, DecidableEq

/-- A status event, from its uses in scheduler.go: job id, opaque JSON
payload, emission timestamp (opaque here). -/
structure ChanMsg where
  id : String
  msg : String
  time : Nat
deriving Repr, DecidableEq

/-- An outbound viewer record, from its uses in the websocket event loop:
job id, last success payload, last error payload. -/
structure WsMsg where
  id : String
  out : String
  err : String
deriving Repr, DecidableEq

/-- The timer definition a Job is driven by, as built in RescheduleBackups:
a cron-driven task when the Schedule's cron expression is non-empty,
otherwise a one-shot task whose start time is `time.Now().AddDate(1000,0,0)`
— one thousand calendar years ahead. -/
inductive JobDef where
  | cronJob (expr : String)
  | oneTimeJob (yearsAhead : Nat)
deriving Repr, DecidableEq

/-- A Job runtime record (scheduler.go lines 14-22).  The gocron handle is
represented by the timer definition it was created from; the
context/cancel pair is represented by a generation counter `ctxGen` that
RecreateCtx bumps (each generation is a fresh, un-fired handle). -/
structure Job where
  id : String
  job : JobDef
  schedule : Schedule
  running : Bool
  force : Bool
  ctxGen : Nat
deriving Repr, DecidableEq

/-- The Scheduler state visible to the claims: the Jobs slice, the two
status event channels as traces of everything sent on them, the
last-run record kept by Settings, and traces of the RunNow and Cancel
side effects. -/
structure SchedulerState where
  jobs : List Job
  outputCh : List ChanMsg
  errorCh : List ChanMsg
  lastRun : List (String × String)
  runNowCalls : List String
  cancelCalls : List String
deriving Repr, DecidableEq

/-- The payload `{"running": true}` emitted by the before-run hook. -/
def runningTrueMsg : String := "\x7b\"running\": true\x7d"

/-- The payload `{"running": false}` emitted by the after-run hooks and by
StopJobById. -/
def runningFalseMsg : String := "\x7b\"running\": false\x7d"

/-- The empty-object sentinel `{}` filtered out before serialization. -/
def emptyObjectMsg : String := "\x7b\x7d"

/-- Update the first element satisfying `p` and leave the rest unchanged:
the `for ... if ... { mutate; break }` loop shape used throughout
scheduler.go. -/
def updateFirst (p : Job → Bool) (f : Job → Job) : List Job → List Job
  | [] => []
  | j :: rest => if p j then f j :: rest else j :: updateFirst p f rest

/-- RunJobById (scheduler.go lines 56-68): find the first Job with the id,
set its Force flag on the stored record, and request immediate execution
of its underlying task (`j.job.RunNow()`); a missing id falls through the
loop with no effect. -/
def runJobById (s : SchedulerState) (id : String) : SchedulerState :=
  match s.jobs.find? (fun j => j.id = id) with
  | some _ =>
    { s with
      jobs := updateFirst (fun j => j.id = id) (fun j => { j with force := true }) s.jobs,
      runNowCalls := s.runNowCalls ++ [id] }
  | none => s

/-- StopJobById (scheduler.go lines 70-78): find the first Job with the id,
emit `{"running": false}` keyed by its Schedule's id on the success
channel, and invoke its cancellation handle; a missing id falls through
the loop with no effect.  The Jobs slice itself is never written. -/
def stopJobById (s : SchedulerState) (id : String) (now : Nat) : SchedulerState :=
  match s.jobs.find? (fun j => j.id = id) with
  | some j =>
    { s with
      outputCh := s.outputCh ++ [{ id := j.schedule.id, msg := runningFalseMsg, time := now }],
      cancelCalls := s.cancelCalls ++ [j.id] }
  | none => s

/-- DeleteRunningJob (scheduler.go lines 80-92): under the Registry lock,
clear the first matching Job's Running and Force flags. -/
def deleteRunningJob (s : SchedulerState) (id : String) : SchedulerState :=
  { s with
    jobs := updateFirst (fun j => j.id = id)
      (fun j => { j with running := false, force := false }) s.jobs }

/-- SetRunningJob (scheduler.go lines 105-117): under the Registry lock,
set the first matching Job's Running flag. -/
def setRunningJob (s : SchedulerState) (id : String) : SchedulerState :=
  { s with
    jobs := updateFirst (fun j => j.id = id) (fun j => { j with running := true }) s.jobs }

/-- RecreateCtx (scheduler.go lines 119-129): replace the first matching
Job's context/cancel pair with a fresh one (the gocron job's name equals
the Schedule id it was created with, which equals the Job's id). -/
def recreateCtx (s : SchedulerState) (name : String) : SchedulerState :=
  { s with
    jobs := updateFirst (fun j => j.id = name) (fun j => { j with ctxGen := j.ctxGen + 1 }) s.jobs }

/-- FindJobById (scheduler.go lines 94-103): under the Registry lock,
return a snapshot copy of the first matching Job. -/
def findJobById (s : SchedulerState) (id : String) : Option Job :=
  s.jobs.find? (fun j => j.id = id)

/-- GetRunningJobs (scheduler.go lines 131-135): under the Registry lock,
the filter snapshot of all Jobs with Running set. -/
def getRunningJobs (s : SchedulerState) : List Job :=
  s.jobs.filter (fun j => j.running)

/-- Modelled from the spec: `Settings.SetLastRun` is called by the
after-run hooks but its body is not under src/; the spec says the hooks
"record the error text as last-error" (empty text on success).  Stored as
a name-to-text association, last write wins. -/
def setLastRun (s : SchedulerState) (name text : String) : SchedulerState :=
  { s with lastRun := (name, text) :: s.lastRun.filter (fun p => p.1 ≠ name) }

/-- The last-run text recorded for a job name, if any. -/
def lastRunOf (s : SchedulerState) (name : String) : Option String :=
  (s.lastRun.find? (fun p => p.1 = name)).map (fun p => p.2)

/-- The BeforeJobRuns listener (scheduler.go lines 167-177): emit
`{"running": true}` on the success channel, then mark the Job running. -/
def beforeJobRuns (s : SchedulerState) (jobName : String) (now : Nat) : SchedulerState :=
  setRunningJob
    { s with outputCh := s.outputCh ++ [{ id := jobName, msg := runningTrueMsg, time := now }] }
    jobName

/-- The AfterJobRuns listener (scheduler.go lines 178-188): emit
`{"running": false}` on the success channel, clear the Running/Force
flags, recreate the cancellation handle, record an empty last-run. -/
def afterJobRuns (s : SchedulerState) (jobName : String) (now : Nat) : SchedulerState :=
  setLastRun
    (recreateCtx
      (deleteRunningJob
        { s with outputCh := s.outputCh ++ [{ id := jobName, msg := runningFalseMsg, time := now }] }
        jobName)
      jobName)
    jobName ""

/-- The AfterJobRunsWithError listener (scheduler.go lines 189-199): emit
`{"running": false}` on the success channel, clear the Running/Force
flags, recreate the cancellation handle, record the error text as the
last-run.  Nothing in this listener writes to the error channel. -/
def afterJobRunsWithError (s : SchedulerState) (jobName errText : String) (now : Nat) :
    SchedulerState :=
  setLastRun
    (recreateCtx
      (deleteRunningJob
        { s with outputCh := s.outputCh ++ [{ id := jobName, msg := runningFalseMsg, time := now }] }
        jobName)
      jobName)
    jobName errText

/-- The Job built for one Schedule in RescheduleBackups (lines 146-151 and
207-220): cron-driven when the cron expression is non-empty, otherwise a
one-shot a thousand years ahead; Running and Force start false and the
context/cancel pair is fresh. -/
def mkJob (schedule : Schedule) : Job :=
  { id := schedule.id
    job := if schedule.cron ≠ "" then .cronJob schedule.cron else .oneTimeJob 1000
    schedule := schedule
    running := false
    force := false
    ctxGen := 0 }

/-- The loop body of RescheduleBackups over the Schedule list.  `ok`
says whether `Gocron.NewJob` succeeds for a Schedule (an external
outcome); on failure the error is logged and that Schedule is skipped
(`continue`), on success the Job is appended. -/
def buildJobs (ok : Schedule → Bool) : List Schedule → List Job
  | [] => []
  | schedule :: rest =>
    if ok schedule then mkJob schedule :: buildJobs ok rest else buildJobs ok rest

/-- RescheduleBackups (scheduler.go lines 137-224): discard the whole Jobs
slice (`s.Jobs = []Job{}`) and rebuild it from the configured Schedule
list. -/
def rescheduleBackups (ok : Schedule → Bool) (s : SchedulerState) (schedules : List Schedule) :
    SchedulerState :=
  { s with jobs := buildJobs ok schedules }

/-! ## The Broadcast Hub (websocket file, `runHub` and friends)

A viewer connection is identified abstractly by a natural number; the
global `clients` map becomes an association list from connection to
last-seen time. -/

/-- A viewer connection identity. -/
abbrev Conn := Nat

/-- The hub's `unregister` arm (runHub, unregister case): `delete(clients,
connection)` — remove the key if present, a no-op on an absent key. -/
def unregisterClient (clients : List (Conn × Nat)) (c : Conn) : List (Conn × Nat) :=
  clients.filter (fun p => p.1 ≠ c)

/-- The hub's `register` arm (runHub, register case): `clients[connection]
= client{LastSeen: now}` — map insert, overwriting any stale entry for the
same key. -/
def registerClient (clients : List (Conn × Nat)) (c : Conn) (now : Nat) : List (Conn × Nat) :=
  (c, now) :: clients.filter (fun p => p.1 ≠ c)

/-- The hub's `broadcast` arm (runHub, broadcast case), iterating the
clients in some map order with `fails c` saying whether `WriteMessage`
fails for `c`.  In the source a failed write is followed by `unregister <-
connection`: a send on the unbuffered `unregister` channel whose only
receiver is this very loop, which is inside this case arm and not at its
select, so the send can never complete — the close calls after it are
never reached and the loop never proceeds to the remaining clients.
Returns the (connection, payload) deliveries actually made and whether the
hub ended up blocked on that self-send. -/
def hubBroadcastArm (fails : Conn → Bool) (message : String) :
    List Conn → List (Conn × String) × Bool
  | [] => ([], false)
  | c :: rest =>
    if fails c then ([], true)
    else
      let r := hubBroadcastArm fails message rest
      ((c, message) :: r.1, r.2)

/-! ## The viewer session event loop (websocket handler in RunServer)

Per connection, the success-channel case of the select: build a WsMsg from
the ChanMsg, upsert it into the session's `outs` list keyed by id, then
serialize the list filtered of empty and `{}` payloads and submit it to
the hub's broadcast inlet. -/

/-- The inner replace loop of the success case: overwrite the first entry
whose id matches and stop (`break`). -/
def replaceFirstById : List WsMsg → WsMsg → List WsMsg
  | [], _ => []
  | arrm :: rest, m => if arrm.id = m.id then m :: rest else arrm :: replaceFirstById rest m

/-- One success-channel event (websocket handler, outputChan case): form
`WsMsg{Id: o.Id, Out: o.Msg, Err: ""}`; when its id is non-empty, append
it if no entry with that id exists (`funk.Find == nil`), else overwrite
the first entry with that id. -/
def processOutMsg (outs : List WsMsg) (o : ChanMsg) : List WsMsg :=
  let m : WsMsg := { id := o.id, out := o.msg, err := "" }
  if m.id ≠ "" then
    if (outs.find? (fun arrm => arrm.id = m.id)).isNone then outs ++ [m]
    else replaceFirstById outs m
  else outs

/-- The session's success table after a sequence of success-channel
events, starting from the empty `outs := []WsMsg{}`. -/
def processOutEvents (events : List ChanMsg) : List WsMsg :=
  events.foldl processOutMsg []

/-- The list serialized into a broadcast payload on the success path:
entries whose Out payload is empty or the `{}` sentinel are filtered
out (`funk.Filter(outs, o.Out != "" && o.Out != "{}")`). -/
def outBroadcastList (outs : List WsMsg) : List WsMsg :=
  outs.filter (fun o => o.out ≠ "" ∧ o.out ≠ emptyObjectMsg)

/-! ## The external-process wrapper (src/restic.go) -/

/-- A repository record; the struct is not under src/, its fields here are
the ones restic.go reads (`repository.Path`, `repository.Password`). -/
structure Repository where
  path : String
  password : String
deriving Repr, DecidableEq

/-- The Restic wrapper's two capture buffers (bytes.Buffer as String). -/
structure Restic where
  errb : String
  outb : String
deriving Repr, DecidableEq

/-- What the external `/usr/bin/restic` process did on one invocation: the
error from `c.Start()` if any, and the bytes captured on stdout and
stderr.  An external outcome, passed in as a parameter. -/
structure ExecOutcome where
  startErr : Option String
  stdout : String
  stderr : String
deriving Repr, DecidableEq

/-- Restic.core (restic.go lines 64-85): run the external command; a
`c.Start()` error is only printed, `c.Wait()`'s error is discarded, the
captured stderr/stdout are appended to the wrapper's buffers, and the
function returns `(sout.String(), nil)` — the error result is the
constant nil on every path, including a failed start. -/
def core (r : Restic) (repository : Repository) (cmd : List String) (envs : List String)
    (outcome : ExecOutcome) : Restic × String × Option String :=
  ({ errb := r.errb ++ outcome.stderr, outb := r.outb ++ outcome.stdout }, outcome.stdout, none)

/-- Restic.Check (restic.go lines 93-98): forward core's error if there is
one, else return nil. -/
def Check (r : Restic) (repository : Repository) (outcome : ExecOutcome) :
    Restic × Option String :=
  match core r repository ["check"] [] outcome with
  | (r', _, some e) => (r', some e)
  | (r', _, none) => (r', none)

/-- Restic.Initialize (restic.go lines 100-105): forward core's error if
there is one, else return nil. -/
def Initialize (r : Restic) (repository : Repository) (outcome : ExecOutcome) :
    Restic × Option String :=
  match core r repository ["init"] [] outcome with
  | (r', _, some e) => (r', some e)
  | (r', _, none) => (r', none)

/-! ## Syntactic traces for the locking and set-ownership claims

The lock-discipline and single-writer claims are about which statements a
function body performs, not about the values it computes, so they are
settled over per-function traces of the relevant primitive actions,
transcribed statement by statement from the source. -/

/-- The primitive actions of a Scheduler method on the Registry, in the
order the method's body performs them. -/
inductive RegOp where
  | lockOp
  | unlockOp
  | mutateRunning
  | mutateForce
  | mutateCtx
  | mutateJobsList
  | readJobs
  | logOp
  | emitOutput
  | runNow
  | cancelCtx
  | setLastRunOp
deriving Repr, DecidableEq

/-- Whether a Registry action writes a Job's runtime state (the running
flag, the forced flag, the cancellation handle) or the Jobs slice. -/
def RegOp.isMutation : RegOp → Bool
  | .mutateRunning | .mutateForce | .mutateCtx | .mutateJobsList => true
  | _ => false

/-- RunJobById's trace (lines 56-68): range over Jobs, log, set
`s.Jobs[i].Force`, call RunNow.  No jmu.Lock anywhere in the body. -/
def runJobByIdOps : List RegOp :=
  [.readJobs, .logOp, .mutateForce, .runNow]

/-- StopJobById's trace (lines 70-78): range over Jobs, emit on the output
channel, call the cancellation handle. -/
def stopJobByIdOps : List RegOp :=
  [.readJobs, .emitOutput, .cancelCtx]

/-- DeleteRunningJob's trace (lines 80-92): jmu.Lock, deferred Unlock,
range, log, clear Running, clear Force. -/
def deleteRunningJobOps : List RegOp :=
  [.lockOp, .readJobs, .logOp, .mutateRunning, .mutateForce, .unlockOp]

/-- SetRunningJob's trace (lines 105-117): jmu.Lock, deferred Unlock,
range, set Running, log. -/
def setRunningJobOps : List RegOp :=
  [.lockOp, .readJobs, .mutateRunning, .logOp, .unlockOp]

/-- FindJobById's trace (lines 94-103): jmu.Lock, deferred Unlock, range. -/
def findJobByIdOps : List RegOp :=
  [.lockOp, .readJobs, .unlockOp]

/-- RecreateCtx's trace (lines 119-129): range over Jobs, log, assign a
fresh context and cancel function.  No jmu.Lock anywhere in the body. -/
def recreateCtxOps : List RegOp :=
  [.readJobs, .logOp, .mutateCtx]

/-- GetRunningJobs's trace (lines 131-135): jmu.Lock, deferred Unlock,
filter. -/
def getRunningJobsOps : List RegOp :=
  [.lockOp, .readJobs, .unlockOp]

/-- RescheduleBackups's trace (lines 137-224): assign `s.Jobs = []Job{}`,
log, then per Schedule create the task and append to the Jobs slice.  No
jmu.Lock anywhere in the body. -/
def rescheduleBackupsOps : List RegOp :=
  [.mutateJobsList, .logOp, .mutateJobsList]

/-- Whether every mutation in the trace happens while the lock is held,
tracking the lock depth left to right. -/
def mutationsLocked : List RegOp → Nat → Bool
  | [], _ => true
  | op :: rest, depth =>
    match op with
    | .lockOp => mutationsLocked rest (depth + 1)
    | .unlockOp => mutationsLocked rest (depth - 1)
    | op => (!op.isMutation || decide (0 < depth)) && mutationsLocked rest depth

/-- The primitive accesses a component makes to the hub's Client set: a
direct read of the map, a direct write to the map, or a submission to one
of the hub's three inlet channels. -/
inductive ClientSetOp where
  | readSet
  | writeSet
  | submitRegister
  | submitUnregister
  | submitBroadcast
deriving Repr, DecidableEq

/-- cleanClients's accesses (websocket file, lines 68-79): range over the
clients map, and for each stale entry submit it to the unregister inlet;
it never writes the map itself. -/
def cleanClientsOps : List ClientSetOp :=
  [.readSet, .submitUnregister]

/-- handlePing's accesses (websocket file, lines 81-102): on each inbound
message, range over the clients map looking for the matching connection
and assign `clients[connection] = c` — a direct write to the Client set
from the ping handler's goroutine, not a submission to an inlet. -/
def handlePingOps : List ClientSetOp :=
  [.readSet, .writeSet]

/-- The viewer session's accesses (the websocket handler in RunServer):
register itself on connect, submit serialized payloads to the broadcast
inlet, submit itself to the unregister inlet on disconnect; it never
touches the map. -/
def viewerSessionOps : List ClientSetOp :=
  [.submitRegister, .submitBroadcast, .submitUnregister]

/-! ## Concrete fixtures used by witnesses and counterexamples -/

/-- A cron-driven Schedule fixture. -/
def s1Sched : Schedule :=
  { id := "s1", cron := "*/5 * * * *", backupId := "b1", toRepositoryId := "r1",
    fromRepositoryId := "r0" }

/-- A one-shot (empty cron) Schedule fixture. -/
def e1Sched : Schedule :=
  { id := "e1", cron := "", backupId := "b2", toRepositoryId := "r2", fromRepositoryId := "r0" }

/-- The Schedule of the spec's failing-executor scenario. -/
def s2Sched : Schedule :=
  { id := "s2", cron := "*/5 * * * *", backupId := "b3", toRepositoryId := "r3",
    fromRepositoryId := "r0" }

/-- A Scheduler with nothing scheduled and empty traces. -/
def emptyState : SchedulerState :=
  { jobs := [], outputCh := [], errorCh := [], lastRun := [], runNowCalls := [],
    cancelCalls := [] }

/-- A Scheduler holding exactly the Job of `s2Sched`. -/
def s2State : SchedulerState :=
  { emptyState with jobs := [mkJob s2Sched] }

/-! ## Helper lemmas -/

theorem updateFirst_comp (p : Job → Bool) (f g : Job → Job)
    (hf : ∀ j, p (f j) = p j) (l : List Job) :
    updateFirst p g (updateFirst p f l) = updateFirst p (fun j => g (f j)) l := by
  induction l with
  | nil => rfl
  | cons j rest ih =>
    by_cases hp : p j
    · simp [updateFirst, hp, hf j]
    · simp [updateFirst, hp, ih]

theorem mem_updateFirst_id (l : List Job) (hd : l.Pairwise (fun a b => a.id ≠ b.id))
    (f : Job → Job) (name : String) (j' : Job)
    (hm : j' ∈ updateFirst (fun j => j.id = name) f l) (hid : j'.id = name) :
    ∃ j ∈ l, j.id = name ∧ j' = f j := by
  induction l with
  | nil => simp [updateFirst] at hm
  | cons j rest ih =>
    rw [List.pairwise_cons] at hd
    by_cases hp : j.id = name
    · rw [updateFirst, if_pos (by simpa using hp)] at hm
      rcases List.mem_cons.mp hm with h1 | h2
      · exact ⟨j, List.mem_cons_self j rest, hp, h1⟩
      · exact absurd (hid.trans hp.symm) (fun he => hd.1 j' h2 (id (Eq.symm he)) |>.elim)
    · rw [updateFirst, if_neg (by simpa using hp)] at hm
      rcases List.mem_cons.mp hm with h1 | h2
      · exact absurd (h1 ▸ hid) hp
      · obtain ⟨j0, hj0mem, hj0, hj0eq⟩ := ih hd.2 h2
        exact ⟨j0, List.mem_cons_of_mem j hj0mem, hj0, hj0eq⟩

theorem unregisterClient_idem (clients : List (Conn × Nat)) (c : Conn) :
    unregisterClient (unregisterClient clients c) c = unregisterClient clients c := by
  unfold unregisterClient
  apply List.filter_eq_self.mpr
  intro p hp
  exact (List.mem_filter.mp hp).2

/-! ## The claims -/

/-- C10: the external-process wrapper Restic.core returns a nil error on
every execution path, including when starting or waiting on the external
command fails; consequently Check and Initialize always return nil and no
caller can observe an execution failure through the error return.  The
outcome ranges over every possible behaviour of the external process,
failed starts included. -/
theorem C10_core_error_always_nil (r : Restic) (repository : Repository)
    (cmd envs : List String) (outcome : ExecOutcome) :
    (core r repository cmd envs outcome).2.2 = none ∧
    (Check r repository outcome).2 = none ∧
    (Initialize r repository outcome).2 = none :=
  ⟨rfl, rfl, rfl⟩

/-- C3 (code evaluated at the failing input): the traces of RecreateCtx,
RunJobById and RescheduleBackups mutate Job runtime state (the
cancellation handle, the forced flag, the Jobs slice) with the Registry
lock never held, while DeleteRunningJob and SetRunningJob do hold it
across their mutations — refuting the claim that every runtime-state
mutation happens under the Registry's exclusive lock. -/
theorem C3_lock_discipline_check :
    mutationsLocked recreateCtxOps 0 = false ∧
    mutationsLocked runJobByIdOps 0 = false ∧
    mutationsLocked rescheduleBackupsOps 0 = false ∧
    mutationsLocked deleteRunningJobOps 0 = true ∧
    mutationsLocked setRunningJobOps 0 = true ∧
    mutationsLocked findJobByIdOps 0 = true ∧
    mutationsLocked getRunningJobsOps 0 = true := by
  decide

/-- C5 (code evaluated at the failing input): handlePing's body performs a
direct write to the hub's Client set (`clients[connection] = c`), while
cleanClients and the viewer session only submit to the hub's inlets —
refuting the claim that the Hub's own loop is the only code that ever
writes the Client set. -/
theorem C5_single_writer_check :
    ClientSetOp.writeSet ∈ handlePingOps ∧
    ClientSetOp.writeSet ∉ cleanClientsOps ∧
    ClientSetOp.writeSet ∉ viewerSessionOps := by
  decide

/-- C2 (code evaluated at the failing input): three registered clients, the
write to client 2 fails mid-broadcast.  The hub's broadcast arm blocks
forever on the send to its own unregister inlet: only client 1 receives
the payload, client 3 never does, and the hub ends the arm stuck —
refuting the claim that a failing viewer is evicted and the remaining
clients still receive that broadcast's payload. -/
theorem C2_broadcast_stuck_check :
    (hubBroadcastArm (fun c => c == 2) "payload" [1, 2, 3]).1 = [(1, "payload")] ∧
    (hubBroadcastArm (fun c => c == 2) "payload" [1, 2, 3]).2 = true ∧
    (3, "payload") ∉ (hubBroadcastArm (fun c => c == 2) "payload" [1, 2, 3]).1 := by
  decide

/-- C9: for every id not present in the Job Registry, runJobById and
stopJobById leave the whole Scheduler state unchanged — no Registry
mutation, no emitted event, no RunNow or Cancel call, no error. -/
theorem C9_unknown_id_noop (s : SchedulerState) (id : String) (now : Nat)
    (h : ∀ j ∈ s.jobs, j.id ≠ id) :
    runJobById s id = s ∧ stopJobById s id now = s := by
  have hf : s.jobs.find? (fun j => j.id = id) = none := by
    rw [List.find?_eq_none]
    intro j hj
    simpa using h j hj
  constructor
  · rw [runJobById, hf]
  · rw [stopJobById, hf]

/-- Witness for C9: triggering and stopping the unknown id "zz" on a
Registry holding only the Job of `s2Sched` changes nothing. -/
theorem C9_unknown_id_noop_witness :
    runJobById s2State "zz" = s2State ∧ stopJobById s2State "zz" 7 = s2State :=
  C9_unknown_id_noop s2State "zz" 7 (by decide)

/-- C7: stopJobById on an already-idle Job leaves the Registry unchanged
(the Jobs slice and the last-run record are untouched; the only effects
are the advisory `{"running": false}` emission and the cancellation-handle
call), and submitting the same Client to unregister twice is safe:
removing an absent Client leaves the Client set unchanged, and a second
removal of the same Client changes nothing further. -/
theorem C7_stop_idle_and_unregister_idempotent (s : SchedulerState) (id : String) (now : Nat)
    (hidle : ∀ j ∈ s.jobs, j.id = id → j.running = false)
    (clients : List (Conn × Nat)) (c c' : Conn)
    (habsent : ∀ p ∈ clients, p.1 ≠ c) :
    (stopJobById s id now).jobs = s.jobs ∧
    (stopJobById s id now).lastRun = s.lastRun ∧
    (stopJobById s id now).runNowCalls = s.runNowCalls ∧
    unregisterClient clients c = clients ∧
    unregisterClient (unregisterClient clients c') c' = unregisterClient clients c' := by
  refine ⟨?_, ?_, ?_, ?_, unregisterClient_idem clients c'⟩
  · cases hf : s.jobs.find? (fun j => j.id = id) <;> simp [stopJobById, hf]
  · cases hf : s.jobs.find? (fun j => j.id = id) <;> simp [stopJobById, hf]
  · cases hf : s.jobs.find? (fun j => j.id = id) <;> simp [stopJobById, hf]
  · rw [unregisterClient, List.filter_eq_self]
    intro p hp
    simpa using habsent p hp

/-- Witness for C7: stopping the idle Job "s2" leaves the Registry's state
untouched, and unregistering the absent connection 7 (twice) leaves the
one-client set unchanged. -/
theorem C7_stop_idle_and_unregister_idempotent_witness :
    (stopJobById s2State "s2" 3).jobs = s2State.jobs ∧
    (stopJobById s2State "s2" 3).lastRun = s2State.lastRun ∧
    (stopJobById s2State "s2" 3).runNowCalls = s2State.runNowCalls ∧
    unregisterClient [(5, 0)] 7 = [(5, 0)] ∧
    unregisterClient (unregisterClient [(5, 0)] 5) 5 = unregisterClient [(5, 0)] 5 :=
  C7_stop_idle_and_unregister_idempotent s2State "s2" 3 (by decide) [(5, 0)] 7 5 (by decide)

/-- C1 counterexample: the executor fails with "disk full" for job "s2";
running the after-run-error listener leaves the error channel exactly as
it was (here empty) while emitting the running-false payload on the
success channel — the listener emits nothing on the error channel,
refuting the claim as stated. -/
theorem C1_counterexample :
    (afterJobRunsWithError s2State "s2" "disk full" 0).errorCh = [] ∧
    (afterJobRunsWithError s2State "s2" "disk full" 0).outputCh
      = [{ id := "s2", msg := runningFalseMsg, time := 0 }] := by
  constructor <;> rfl

/-- C1 (amended): for every job run that ends in an execution error, the
after-run-error hook emits a running-false payload on the success channel,
performs the same state cleanup as success (running and forced cleared,
cancellation handle recreated), and records the error text as the job's
last-error; it emits nothing on the error channel. -/
theorem C1_after_run_error_amended (s : SchedulerState) (jobName errText : String) (now : Nat)
    (hdist : s.jobs.Pairwise (fun a b => a.id ≠ b.id)) :
    (afterJobRunsWithError s jobName errText now).outputCh
      = s.outputCh ++ [{ id := jobName, msg := runningFalseMsg, time := now }] ∧
    (afterJobRunsWithError s jobName errText now).errorCh = s.errorCh ∧
    lastRunOf (afterJobRunsWithError s jobName errText now) jobName = some errText ∧
    ∀ j ∈ (afterJobRunsWithError s jobName errText now).jobs,
      j.id = jobName → j.running = false ∧ j.force = false := by
  refine ⟨?_, ?_, ?_, ?_⟩
  · simp [afterJobRunsWithError, setLastRun, recreateCtx, deleteRunningJob]
  · simp [afterJobRunsWithError, setLastRun, recreateCtx, deleteRunningJob]
  · simp [afterJobRunsWithError, setLastRun, recreateCtx, deleteRunningJob, lastRunOf,
      List.find?]
  · intro j hj hid
    have hjobs : (afterJobRunsWithError s jobName errText now).jobs
        = updateFirst (fun j => j.id = jobName)
            (fun j =>
              { { j with running := false, force := false } with
                  ctxGen := { j with running := false, force := false }.ctxGen + 1 })
            s.jobs := by
      simp [afterJobRunsWithError, setLastRun, recreateCtx, deleteRunningJob]
      rw [updateFirst_comp]
      intro j0
      rfl
    rw [hjobs] at hj
    obtain ⟨j0, _, _, hj0⟩ := mem_updateFirst_id s.jobs hdist _ jobName j hj hid
    rw [hj0]
    exact ⟨rfl, rfl⟩

/-- Witness for C1's amended theorem at the state holding the Job of
`s2Sched`, with error text "disk full". -/
theorem C1_after_run_error_amended_witness :
    (afterJobRunsWithError s2State "s2" "disk full" 0).outputCh
      = s2State.outputCh ++ [{ id := "s2", msg := runningFalseMsg, time := 0 }] ∧
    (afterJobRunsWithError s2State "s2" "disk full" 0).errorCh = s2State.errorCh ∧
    lastRunOf (afterJobRunsWithError s2State "s2" "disk full" 0) "s2" = some "disk full" :=
  have h := C1_after_run_error_amended s2State "s2" "disk full" 0 (by decide)
  ⟨h.1, h.2.1, h.2.2.1⟩

theorem mem_buildJobs {ok : Schedule → Bool} {l : List Schedule} {j : Job}
    (h : j ∈ buildJobs ok l) : ∃ s0 ∈ l, ok s0 = true ∧ j = mkJob s0 := by
  induction l with
  | nil => simp [buildJobs] at h
  | cons a rest ih =>
    by_cases ha : ok a
    · rw [buildJobs, if_pos ha] at h
      rcases List.mem_cons.mp h with h1 | h2
      · exact ⟨a, List.mem_cons_self a rest, ha, h1⟩
      · obtain ⟨s0, hs0, hok0, he⟩ := ih h2
        exact ⟨s0, List.mem_cons_of_mem a hs0, hok0, he⟩
    · rw [buildJobs, if_neg ha] at h
      obtain ⟨s0, hs0, hok0, he⟩ := ih h
      exact ⟨s0, List.mem_cons_of_mem a hs0, hok0, he⟩

theorem buildJobs_filter_of_not_mem {ok : Schedule → Bool} {l : List Schedule} {i : String}
    (h : ∀ s0 ∈ l, s0.id ≠ i) :
    (buildJobs ok l).filter (fun j => j.id = i) = [] := by
  rw [List.filter_eq_nil_iff]
  intro j hj
  obtain ⟨s0, hs0, _, he⟩ := mem_buildJobs hj
  simpa [he, mkJob] using h s0 hs0

theorem buildJobs_filter (ok : Schedule → Bool) (schedules : List Schedule)
    (hdist : schedules.Pairwise (fun a b => a.id ≠ b.id)) (sc : Schedule)
    (hmem : sc ∈ schedules) :
    (buildJobs ok schedules).filter (fun j => j.id = sc.id)
      = if ok sc then [mkJob sc] else [] := by
  induction schedules with
  | nil => cases hmem
  | cons a rest ih =>
    rw [List.pairwise_cons] at hdist
    rcases List.mem_cons.mp hmem with h1 | h2
    · subst h1
      by_cases ha : ok sc
      · rw [buildJobs, if_pos ha, if_pos ha, List.filter_cons_of_pos (by simp [mkJob])]
        rw [buildJobs_filter_of_not_mem (fun s0 hs0 => (hdist.1 s0 hs0).symm)]
      · rw [buildJobs, if_neg ha, if_neg ha]
        exact buildJobs_filter_of_not_mem (fun s0 hs0 => (hdist.1 s0 hs0).symm)
    · have hne : a.id ≠ sc.id := hdist.1 sc h2
      by_cases ha : ok a
      · rw [buildJobs, if_pos ha, List.filter_cons_of_neg (by simp [mkJob, hne])]
        exact ih hdist.2 h2
      · rw [buildJobs, if_neg ha]
        exact ih hdist.2 h2

theorem buildJobs_length (ok : Schedule → Bool) (l : List Schedule) :
    (buildJobs ok l).length = (l.filter ok).length := by
  induction l with
  | nil => rfl
  | cons a rest ih =>
    by_cases ha : ok a
    · rw [buildJobs, if_pos ha, List.filter_cons_of_pos ha]
      simpa using ih
    · rw [buildJobs, if_neg ha, List.filter_cons_of_neg (by simpa using ha)]
      exact ih

/-- C4: rebuildSchedule discards all current Jobs (the resulting Jobs
slice does not depend on the Scheduler's previous Jobs) and reconstructs
one Job per Schedule: with distinct Schedule ids and every timer-task
creation succeeding, each Schedule yields exactly one Job with a matching
id, driven by a cron timer when its cron expression is non-empty and
otherwise by a one-shot timer a thousand years in the future. -/
theorem C4_reschedule_rebuilds (ok : Schedule → Bool) (s s' : SchedulerState)
    (schedules : List Schedule)
    (hdist : schedules.Pairwise (fun a b => a.id ≠ b.id))
    (hok : ∀ sc ∈ schedules, ok sc = true) :
    (rescheduleBackups ok s schedules).jobs = (rescheduleBackups ok s' schedules).jobs ∧
    ∀ sc ∈ schedules,
      (rescheduleBackups ok s schedules).jobs.filter (fun j => j.id = sc.id) = [mkJob sc] ∧
      (sc.cron ≠ "" → (mkJob sc).job = JobDef.cronJob sc.cron) ∧
      (sc.cron = "" → (mkJob sc).job = JobDef.oneTimeJob 1000) ∧
      (mkJob sc).running = false := by
  refine ⟨rfl, fun sc hmem => ⟨?_, ?_, ?_, rfl⟩⟩
  · have := buildJobs_filter ok schedules hdist sc hmem
    rw [hok sc hmem] at this
    simpa [rescheduleBackups] using this
  · intro hc
    simp [mkJob, hc]
  · intro hc
    simp [mkJob, hc]

/-- Witness for C4: rebuilding from the two-Schedule list `[s1Sched,
e1Sched]` with every task creation succeeding yields exactly one Job for
each id, cron-driven for "s1" and an inert far-future one-shot for
"e1". -/
theorem C4_reschedule_rebuilds_witness :
    (rescheduleBackups (fun _ => true) emptyState [s1Sched, e1Sched]).jobs.filter
        (fun j => j.id = s1Sched.id) = [mkJob s1Sched] ∧
    (rescheduleBackups (fun _ => true) emptyState [s1Sched, e1Sched]).jobs.filter
        (fun j => j.id = e1Sched.id) = [mkJob e1Sched] ∧
    (mkJob s1Sched).job = JobDef.cronJob "*/5 * * * *" ∧
    (mkJob e1Sched).job = JobDef.oneTimeJob 1000 :=
  have h := C4_reschedule_rebuilds (fun _ => true) emptyState emptyState [s1Sched, e1Sched]
    (by decide) (fun _ _ => rfl)
  have h1 := h.2 s1Sched (by simp)
  have h2 := h.2 e1Sched (by simp)
  ⟨h1.1, h2.1, h1.2.1 (by decide), h2.2.2.1 rfl⟩

/-- C8: during a rebuild, a Schedule whose timer-task creation fails is
skipped and only it is skipped: with distinct Schedule ids, every
Schedule whose creation succeeds still yields its Job, a failing Schedule
yields none, and the rebuild always runs to completion producing one Job
per successful Schedule. -/
theorem C8_failed_schedule_skipped (ok : Schedule → Bool) (s : SchedulerState)
    (schedules : List Schedule)
    (hdist : schedules.Pairwise (fun a b => a.id ≠ b.id)) :
    (∀ sc ∈ schedules, ok sc = true →
      (rescheduleBackups ok s schedules).jobs.filter (fun j => j.id = sc.id) = [mkJob sc]) ∧
    (∀ sc ∈ schedules, ok sc = false →
      (rescheduleBackups ok s schedules).jobs.filter (fun j => j.id = sc.id) = []) ∧
    (rescheduleBackups ok s schedules).jobs.length = (schedules.filter ok).length := by
  refine ⟨?_, ?_, buildJobs_length ok schedules⟩
  · intro sc hmem hsc
    have := buildJobs_filter ok schedules hdist sc hmem
    rw [hsc] at this
    simpa [rescheduleBackups] using this
  · intro sc hmem hsc
    have := buildJobs_filter ok schedules hdist sc hmem
    rw [hsc] at this
    simpa [rescheduleBackups] using this

/-- Witness for C8: task creation fails for `e1Sched` and succeeds for
`s1Sched` and `s2Sched`; the rebuild still creates the Jobs of "s1" and
"s2", creates none for "e1", and produces two Jobs overall. -/
theorem C8_failed_schedule_skipped_witness :
    (rescheduleBackups (fun sc => sc.id ≠ "e1") emptyState [s1Sched, e1Sched, s2Sched]).jobs.filter
        (fun j => j.id = s1Sched.id) = [mkJob s1Sched] ∧
    (rescheduleBackups (fun sc => sc.id ≠ "e1") emptyState [s1Sched, e1Sched, s2Sched]).jobs.filter
        (fun j => j.id = e1Sched.id) = [] ∧
    (rescheduleBackups (fun sc => sc.id ≠ "e1") emptyState [s1Sched, e1Sched, s2Sched]).jobs.filter
        (fun j => j.id = s2Sched.id) = [mkJob s2Sched] :=
  have h := C8_failed_schedule_skipped (fun sc => sc.id ≠ "e1") emptyState
    [s1Sched, e1Sched, s2Sched] (by decide)
  ⟨h.1 s1Sched (by simp) (by decide), h.2.1 e1Sched (by simp) (by decide),
    h.1 s2Sched (by simp) (by decide)⟩

/-- The job ids of a viewer-session table, in order. -/
def wsIds (l : List WsMsg) : List String := l.map (fun w => w.id)

theorem wsIds_replaceFirstById (l : List WsMsg) (m : WsMsg) :
    wsIds (replaceFirstById l m) = wsIds l := by
  induction l with
  | nil => rfl
  | cons arrm rest ih =>
    by_cases h : arrm.id = m.id
    · simp [replaceFirstById, h, wsIds]
    · simpa [replaceFirstById, h, wsIds] using ih

theorem nodup_processOutMsg (outs : List WsMsg) (o : ChanMsg)
    (h : (wsIds outs).Nodup) : (wsIds (processOutMsg outs o)).Nodup := by
  simp only [processOutMsg]
  by_cases hid : o.id ≠ ""
  · rw [if_pos (by simpa using hid)]
    cases hf : outs.find? (fun arrm => arrm.id = o.id) with
    | none =>
      simp only [Option.isNone_none, if_pos]
      have hnotin : o.id ∉ wsIds outs := by
        intro hmem
        obtain ⟨w, hw, hwid⟩ := List.mem_map.mp hmem
        have := List.find?_eq_none.mp hf w hw
        simp [hwid] at this
      simp only [wsIds, List.map_append, List.map_cons, List.map_nil]
      refine List.Nodup.append h (List.nodup_singleton _) ?_
      intro a ha hb
      rw [List.mem_singleton] at hb
      subst hb
      exact hnotin ha
    | some w =>
      simp only [Option.isNone_some, Bool.false_eq_true, if_false]
      rw [wsIds_replaceFirstById]
      exact h
  · rw [if_neg (by simpa using hid)]
    exact h

theorem nodup_foldl_processOutMsg (events : List ChanMsg) (acc : List WsMsg)
    (h : (wsIds acc).Nodup) : (wsIds (events.foldl processOutMsg acc)).Nodup := by
  induction events generalizing acc with
  | nil => exact h
  | cons e rest ih => exact ih (processOutMsg acc e) (nodup_processOutMsg acc e h)

theorem filter_replaceFirstById (l : List WsMsg) (m : WsMsg)
    (hnd : (wsIds l).Nodup) (hex : ∃ x ∈ l, x.id = m.id) :
    (replaceFirstById l m).filter (fun w => w.id = m.id) = [m] := by
  induction l with
  | nil =>
    obtain ⟨x, hx, _⟩ := hex
    cases hx
  | cons arrm rest ih =>
    simp only [wsIds, List.map_cons, List.nodup_cons] at hnd
    by_cases h : arrm.id = m.id
    · rw [replaceFirstById, if_pos (by simpa using h), List.filter_cons_of_pos (by simp)]
      have : rest.filter (fun w => w.id = m.id) = [] := by
        rw [List.filter_eq_nil_iff]
        intro w hw
        simp only [decide_eq_true_eq]
        intro hwid
        exact hnd.1 (h ▸ hwid ▸ List.mem_map_of_mem (fun w => w.id) hw)
      rw [this]
    · rw [replaceFirstById, if_neg (by simpa using h),
        List.filter_cons_of_neg (by simpa using h)]
      apply ih hnd.2
      obtain ⟨x, hx, hxid⟩ := hex
      rcases List.mem_cons.mp hx with h1 | h2
      · exact absurd (h1 ▸ hxid) h
      · exact ⟨x, h2, hxid⟩

theorem filter_processOutMsg (outs : List WsMsg) (o : ChanMsg)
    (hnd : (wsIds outs).Nodup) (hid : o.id ≠ "") :
    (processOutMsg outs o).filter (fun w => w.id = o.id)
      = [{ id := o.id, out := o.msg, err := "" }] := by
  simp only [processOutMsg]
  rw [if_pos (by simpa using hid)]
  cases hf : outs.find? (fun arrm => arrm.id = o.id) with
  | none =>
    simp only [Option.isNone_none, if_pos]
    rw [List.filter_append, List.filter_cons_of_pos (by simp), List.filter_nil]
    have : outs.filter (fun w => w.id = o.id) = [] := by
      rw [List.filter_eq_nil_iff]
      intro w hw
      have := List.find?_eq_none.mp hf w hw
      simpa using this
    rw [this, List.nil_append]
  | some w =>
    simp only [Option.isNone_some, Bool.false_eq_true, if_false]
    exact filter_replaceFirstById outs { id := o.id, out := o.msg, err := "" } hnd
      ⟨w, List.mem_of_find?_eq_some hf, by simpa using List.find?_some hf⟩

/-- C6: the viewer session's success table is last-write-wins keyed by job
id — after any prior event sequence, two successive success events for the
same non-empty id leave exactly one entry for that id, holding the later
payload — and no entry whose payload is empty or the empty-object
sentinel ever appears in the list serialized into a broadcast. -/
theorem C6_last_write_wins_and_filtered (events : List ChanMsg) (e1 e2 : ChanMsg)
    (hid : e1.id = e2.id) (hne : e2.id ≠ "") :
    (processOutEvents (events ++ [e1, e2])).filter (fun w => w.id = e2.id)
      = [{ id := e2.id, out := e2.msg, err := "" }] ∧
    ∀ evs : List ChanMsg, ∀ w ∈ outBroadcastList (processOutEvents evs),
      w.out ≠ "" ∧ w.out ≠ emptyObjectMsg := by
  constructor
  · have hsplit : processOutEvents (events ++ [e1, e2])
        = processOutMsg (processOutMsg (processOutEvents events) e1) e2 := by
      simp [processOutEvents, List.foldl_append]
    rw [hsplit]
    exact filter_processOutMsg _ e2
      (nodup_processOutMsg _ e1
        (nodup_foldl_processOutMsg events [] (by simp [wsIds])))
      hne
  · intro evs w hw
    have := (List.mem_filter.mp hw).2
    simpa using this

/-- Witness for C6: from an empty session, the success events
(id "a", payload "X") then (id "a", payload "Y") leave exactly one entry
for "a", holding "Y". -/
theorem C6_last_write_wins_and_filtered_witness :
    (processOutEvents ([] ++ [ChanMsg.mk "a" "X" 0, ChanMsg.mk "a" "Y" 1])).filter
        (fun w => w.id = "a") = [{ id := "a", out := "Y", err := "" }] :=
  (C6_last_write_wins_and_filtered [] (ChanMsg.mk "a" "X" 0) (ChanMsg.mk "a" "Y" 1) rfl
    (by decide)).1

end Resticity
